import Mathlib

/-!
# Verification of the node-graph execution engine

Shallow embedding of the node registry (`backend/app/core/node_registry.py`)
and the flow executor (`backend/app/services/flow_execution.py`).

Modelling conventions:
* Python dictionaries with string keys become association lists
  `List (String × α)`; `lookupA` is key lookup (first match wins, as in a
  dict where keys are unique), `insertA` is `d[k] = v` (replace in place or
  append), `dictUpdate` is `d.update(other)`.
* Arbitrary Python/JSON values (`Any`) become the inductive `Value`.
* `datetime.now(timezone.utc)` becomes an abstract monotone tick counter:
  every function that samples the clock takes the current tick (a `Nat`) and
  returns the next unused tick, so successive samples are strictly ordered
  exactly as successive wall-clock reads are.
* A Python function that may `raise` becomes a function into `Except String`
  carrying `str(e)`; an exception message is the raised `ValueError` text.
* The persistence collaborator is modelled as already-loaded data: the flow's
  node instances and connections are given as lists (the dict shapes produced
  by `_fetch_nodes_from_api` / `_fetch_connections_from_api`).
-/

/-- Arbitrary JSON-like runtime value (Python `Any` as it appears in node
inputs/outputs/settings). -/
inductive Value where
  | str (s : String)
  | num (n : Int)
  | bool (b : Bool)
  | obj (fields : List (String × Value))
  | arr (elems : List Value)
  | null
deriving Repr

/-- A Python dict with string keys. -/
abbrev Dict (α : Type) := List (String × α)

/-- Execution context / inputs / outputs: `Dict[str, Any]`. -/
abbrev Ctx := Dict Value

/-- `d.get(k)` / `k in d` lookup on an association list (first match wins). -/
def lookupA {α : Type} : Dict α → String → Option α
  | [], _ => none
  | (k', v) :: rest, k => if k' == k then some v else lookupA rest k

/-- `d[k] = v`: replace the binding in place if the key exists, else append. -/
def insertA {α : Type} : Dict α → String → α → Dict α
  | [], k, v => [(k, v)]
  | (k', v') :: rest, k, v =>
    if k' == k then (k, v) :: rest else (k', v') :: insertA rest k v

/-- `d.update(other)`: insert every binding of `other` into `d`, in order. -/
def dictUpdate {α : Type} (d other : Dict α) : Dict α :=
  other.foldl (fun acc kv => insertA acc kv.1 kv.2) d

/-- Membership of a string in a list of executed node ids (`x in set`). -/
def containsStr : List String → String → Bool
  | [], _ => false
  | x :: rest, k => if x == k then true else containsStr rest k

/-- The keys of an association list. -/
def keysOf {α : Type} (d : Dict α) : List String := d.map Prod.fst

/-- `NodeCategory` from `app/models/nodes.py`. -/
inductive NodeCategory where
  | trigger
  | processor
  | action
deriving DecidableEq, Repr

/-- `NodeExecutionStatus` from `app/models/nodes.py`. -/
inductive NodeExecutionStatus where
  | pending
  | running
  | success
  | error
deriving DecidableEq, Repr

/-- `NodeExecutionResult` (pydantic model in `app/models/nodes.py`).
Timestamps are abstract clock ticks. -/
structure NodeExecutionResult where
  outputs : Ctx
  status : NodeExecutionStatus
  error : Option String := none
  executionTimeMs : Option Nat := none
  startedAt : Option Nat := none
  completedAt : Option Nat := none
  logs : List String := []
deriving Repr

/-- The fields of `NodeType` (pydantic model in `app/models/nodes.py`) that
the execution engine reads; display fields, ports and the settings schema are
carried nowhere in the executed paths and are omitted. -/
structure NodeType where
  id : String
  name : String
  category : NodeCategory
  version : String
deriving Repr

/-- A node execution handler: `async (context) -> NodeExecutionResult`,
which may also raise (modelled by `Except.error` carrying `str(e)`). -/
abbrev Handler := Ctx → Except String NodeExecutionResult

/-- `NodeRegistry` (`app/core/node_registry.py`): the two dictionaries
`_node_types` and `_execution_handlers`. -/
structure NodeRegistry where
  nodeTypes : Dict NodeType
  executionHandlers : Dict Handler

/-- `NodeRegistry.get_node_type`: raises
`ValueError(f"Node type not found: {node_type_id}")` when absent. -/
def getNodeType (reg : NodeRegistry) (nodeTypeId : String) : Except String NodeType :=
  match lookupA reg.nodeTypes nodeTypeId with
  | none => .error ("Node type not found: " ++ nodeTypeId)
  | some t => .ok t

/-- The timing fill-in of `NodeRegistry.execute_node`'s `try` branch:
`if not result.started_at`, `if not result.completed_at`,
`if not result.execution_time_ms` (Python falsy: `None`, and `0` for the
millisecond count). -/
def fillTiming (result : NodeExecutionResult) (startTime endTime : Nat) :
    NodeExecutionResult :=
  let r1 := if result.startedAt.isNone then
    { result with startedAt := some startTime } else result
  let r2 := if r1.completedAt.isNone then
    { r1 with completedAt := some endTime } else r1
  if r2.executionTimeMs.getD 0 = 0 then
    { r2 with executionTimeMs := some (endTime - startTime) } else r2

/-- `NodeRegistry.execute_node` (`app/core/node_registry.py`, lines 116-145).
Looks up the handler; if absent, raises
`ValueError(f"No execution handler found for node type: {node_type_id}")`
(the `.error` case).  Otherwise samples the clock, invokes the handler, and
fills in missing timing.  A handler that raises is caught and converted into
a `status="error"` result whose timestamps are two fresh clock samples.
Returns the result paired with the next unused clock tick. -/
def executeNode (reg : NodeRegistry) (nodeTypeId : String) (context : Ctx)
    (clock : Nat) : Except String (NodeExecutionResult × Nat) :=
  match lookupA reg.executionHandlers nodeTypeId with
  | none => .error ("No execution handler found for node type: " ++ nodeTypeId)
  | some handler =>
    let startTime := clock
    match handler context with
    | .ok result =>
      let endTime := clock + 1
      .ok (fillTiming result startTime endTime, clock + 2)
    | .error e =>
      .ok ({ outputs := []
             status := .error
             error := some e
             startedAt := some (clock + 1)
             completedAt := some (clock + 2) }, clock + 3)

/-- C1 sanity check on a concrete raising handler. -/
example :
    executeNode ⟨[], [("t", fun _ => .error "boom")]⟩ "t" [] 5 =
      .ok ({ outputs := []
             status := .error
             error := some "boom"
             startedAt := some 6
             completedAt := some 7 }, 8) := rfl

/-- One element of `nodes_data` as built by `_fetch_nodes_from_api`
(`flow_execution.py`, lines 104-130): the dict
`{"id", "typeId", "label", "data", ...}` for one `NodeInstance` row
(`node.data or {}` already applied). -/
structure NodeData where
  id : String
  typeId : String
  label : String
  data : Ctx
deriving Repr

/-- One element of `connections_data` as built by
`_fetch_connections_from_api` (`flow_execution.py`, lines 132-157). -/
structure ConnectionData where
  id : String
  sourceNodeId : String
  targetNodeId : String
  sourcePortId : String
  targetPortId : String
deriving Repr

/-- The flow data the executor works on: the `Flow` row (id and name) plus
the loaded `nodes_data` and `connections_data` (persistence collaborator
modelled as already-loaded data). -/
structure FlowData where
  flowId : Nat
  name : String
  nodes : List NodeData
  connections : List ConnectionData

/-- `FlowExecutionError` (`flow_execution.py`).  The source raises one
exception class with a formatted message; the constructors here record the
distinct messages of `execute_flow`'s failure sites together with the data
interpolated into them. -/
inductive FlowExecutionError where
  | noTriggerFound
  | multipleTriggers (triggerIds : List String)
deriving DecidableEq, Repr

/-- The summary dict returned by `execute_flow` (`flow_execution.py`,
lines 83-90). -/
structure FlowSummary where
  flowId : Nat
  flowName : String
  triggerNodeId : String
  results : Dict NodeExecutionResult
  executedAt : Nat
  totalNodesExecuted : Nat

/-- The decision of `_find_trigger_nodes_modular` for one node
(`flow_execution.py`, lines 177-188): skip a falsy `typeId`, resolve the
type via the registry — a lookup failure is caught and the node skipped —
and keep the node when the resolved category is `trigger`. -/
def isTriggerNode (reg : NodeRegistry) (node : NodeData) : Bool :=
  if node.typeId == "" then false
  else
    match getNodeType reg node.typeId with
    | .error _ => false
    | .ok t => t.category == NodeCategory.trigger

/-- `_find_trigger_nodes_modular` (`flow_execution.py`, lines 159-191):
the sublist of `nodes_data` whose registry-resolved category is `trigger`.
(The local `TRIGGER_NODE_TYPES` dict in the source is defined but never
read.) -/
def findTriggerNodesModular (reg : NodeRegistry) (nodesData : List NodeData) :
    List NodeData :=
  nodesData.filter (isTriggerNode reg)

/-- `node_data.get('data', {}).get('settings', {})` followed by
`final_context.update(stored_settings)`: `none` models the `TypeError` that
`dict.update` raises when the stored settings value is not a mapping
(caught by the surrounding `try`). -/
def getStoredSettings (node : NodeData) : Option Ctx :=
  match lookupA node.data "settings" with
  | none => some []
  | some (Value.obj m) => some m
  | some _ => none

/-- `_execute_node_modular` (`flow_execution.py`, lines 244-288): merge the
stored settings into the execution context and call
`node_registry.execute_node`; any exception (including the registry's
"no execution handler" `ValueError`) is caught and converted into a
`status="error"` result with two fresh clock samples.  Always returns a
result, paired with the next unused clock tick. -/
def executeNodeModular (reg : NodeRegistry) (nodeData : NodeData)
    (executionContext : Ctx) (clock : Nat) : NodeExecutionResult × Nat :=
  match getStoredSettings nodeData with
  | some storedSettings =>
    let finalContext := dictUpdate executionContext storedSettings
    match executeNode reg nodeData.typeId finalContext clock with
    | .ok (result, clock') => (result, clock')
    | .error e =>
      ({ outputs := []
         status := .error
         error := some e
         startedAt := some clock
         completedAt := some (clock + 1) }, clock + 2)
  | none =>
    ({ outputs := []
       status := .error
       error := some "stored settings value is not a mapping"
       startedAt := some clock
       completedAt := some (clock + 1) }, clock + 2)

set_option linter.unusedVariables false in
/-- `_prepare_target_inputs` (`flow_execution.py`, lines 359-401).  Port
mapping: a missing source in `node_outputs` yields `{"inputs": {}}`; a
source port present in the source's outputs yields
`{"inputs": {target_port_id: outputs[source_port_id]}}`; otherwise the
fallback `{"inputs": source_outputs}`. -/
def prepareTargetInputs (sourceNodeId targetNodeId sourcePortId
    targetPortId : String) (nodeOutputs : Dict Ctx) : Ctx :=
  match lookupA nodeOutputs sourceNodeId with
  | none => [("inputs", Value.obj [])]
  | some sourceOutputs =>
    match lookupA sourceOutputs sourcePortId with
    | some v => [("inputs", Value.obj [(targetPortId, v)])]
    | none => [("inputs", Value.obj sourceOutputs)]

/-- `nodes_by_id = {node['id']: node for node in nodes_data}`
(`flow_execution.py`, line 215); a later duplicate id overwrites an
earlier one, as in a dict comprehension. -/
def buildNodesById (nodesData : List NodeData) : Dict NodeData :=
  nodesData.foldl (fun acc n => insertA acc n.id n) []

/-- The mutable state threaded through `_execute_connected_nodes`:
`execution_results`, `executed_nodes`, `node_outputs`, plus the clock. -/
structure ExecState where
  results : Dict NodeExecutionResult
  executed : List String
  outputs : Dict Ctx
  clock : Nat

/-- The body of one executing iteration of `_execute_connected_nodes`'s
connection loop: prepare the target's inputs from the source's outputs,
execute the target, store its result and outputs and mark it executed
(`flow_execution.py`, lines 335-347). -/
def stepState (reg : NodeRegistry) (conn : ConnectionData) (targetNode : NodeData)
    (st : ExecState) : ExecState :=
  let targetInputs := prepareTargetInputs conn.sourceNodeId conn.targetNodeId
    conn.sourcePortId conn.targetPortId st.outputs
  let rc := executeNodeModular reg targetNode targetInputs st.clock
  { results := insertA st.results conn.targetNodeId rc.1
    executed := conn.targetNodeId :: st.executed
    outputs := insertA st.outputs conn.targetNodeId rc.1.outputs
    clock := rc.2 }

mutual

/-- `_execute_connected_nodes` (`flow_execution.py`, lines 290-357): filter
the outgoing connections of the current node and process them in order.
`fuel` models the recursion depth available to the Python call stack; the
`none` result marks fuel exhaustion and is proven unreachable for
`fuel > number of nodes` (claim C4). -/
def execConnectedNodes (reg : NodeRegistry) (flow : FlowData) (fuel : Nat)
    (currentNodeId : String) (st : ExecState) : Option ExecState :=
  match fuel with
  | 0 => none
  | fuel' + 1 =>
    execConnList reg flow fuel'
      (flow.connections.filter (fun c => c.sourceNodeId == currentNodeId)) st
termination_by (fuel, 0)

/-- The `for connection in outgoing_connections` loop body of
`_execute_connected_nodes`: skip already-executed targets, skip targets
missing from `nodes_by_id`, otherwise prepare inputs, execute the target,
record its result and outputs, mark it executed, and recurse into it before
moving on to the remaining connections. -/
def execConnList (reg : NodeRegistry) (flow : FlowData) (fuel : Nat)
    (conns : List ConnectionData) (st : ExecState) : Option ExecState :=
  match conns with
  | [] => some st
  | conn :: rest =>
    if containsStr st.executed conn.targetNodeId then
      execConnList reg flow fuel rest st
    else
      match lookupA (buildNodesById flow.nodes) conn.targetNodeId with
      | none => execConnList reg flow fuel rest st
      | some targetNode =>
        match execConnectedNodes reg flow fuel conn.targetNodeId
            (stepState reg conn targetNode st) with
        | none => none
        | some st'' => execConnList reg flow fuel rest st''
termination_by (fuel, conns.length + 1)

end

/-- Steps 1 of `_execute_flow_modular` (`flow_execution.py`, lines 210-230):
execute the trigger node on the trigger inputs and seed the
results/visited/outputs state with it. -/
def initState (reg : NodeRegistry) (triggerNode : NodeData)
    (triggerInputs : Ctx) (clock : Nat) : ExecState :=
  let tr := executeNodeModular reg triggerNode triggerInputs clock
  { results := [(triggerNode.id, tr.1)]
    executed := [triggerNode.id]
    outputs := [(triggerNode.id, tr.1.outputs)]
    clock := tr.2 }

/-- `_execute_flow_modular` (`flow_execution.py`, lines 193-242): execute
the trigger node, then traverse the connections from it.  The stack-depth
budget `flow.nodes.length + 1` is proven sufficient in claim C4. -/
def executeFlowModular (reg : NodeRegistry) (triggerNode : NodeData)
    (flow : FlowData) (triggerInputs : Ctx) (clock : Nat) : Option ExecState :=
  execConnectedNodes reg flow (flow.nodes.length + 1) triggerNode.id
    (initState reg triggerNode triggerInputs clock)

/-- `execute_flow` (`flow_execution.py`, lines 26-90): identify the trigger
nodes, fail on zero or several, then run the flow from the single trigger
and assemble the summary dict.  The flow-load and ownership check (`_get_flow`)
are the persistence collaborator and are modelled by `flow` being given.
`Option.none` inside `.ok` marks fuel exhaustion of the traversal (proven
unreachable in claim C4). -/
def executeFlow (reg : NodeRegistry) (flow : FlowData) (triggerInputs : Ctx)
    (clock : Nat) : Except FlowExecutionError (Option FlowSummary) :=
  match findTriggerNodesModular reg flow.nodes with
  | [] => .error .noTriggerFound
  | [triggerNode] =>
    match executeFlowModular reg triggerNode flow triggerInputs clock with
    | none => .ok none
    | some st =>
      .ok (some
        { flowId := flow.flowId
          flowName := flow.name
          triggerNodeId := triggerNode.id
          results := st.results
          executedAt := st.clock
          totalNodesExecuted := st.results.length })
  | ts => .error (.multipleTriggers (ts.map NodeData.id))

/-! ## Basic lemmas about the dictionary model -/

theorem lookupA_mem {α : Type} {d : Dict α} {k : String} {v : α}
    (h : lookupA d k = some v) : (k, v) ∈ d := by
  induction d with
  | nil => simp [lookupA] at h
  | cons kv rest ih =>
    obtain ⟨k', v'⟩ := kv
    by_cases hk : k' = k
    · subst hk
      simp [lookupA] at h
      simp [h]
    · simp [lookupA, hk] at h
      exact List.mem_cons_of_mem _ (ih h)

theorem lookupA_eq_none_iff {α : Type} {d : Dict α} {k : String} :
    lookupA d k = none ↔ k ∉ keysOf d := by
  induction d with
  | nil => simp [lookupA, keysOf]
  | cons kv rest ih =>
    obtain ⟨k', v'⟩ := kv
    by_cases hk : k' = k
    · subst hk
      simp [lookupA, keysOf]
    · simp [lookupA, hk, keysOf, ih, Ne.symm hk]

theorem insertA_of_not_mem {α : Type} {d : Dict α} {k : String} (v : α)
    (h : k ∉ keysOf d) : insertA d k v = d ++ [(k, v)] := by
  induction d with
  | nil => simp [insertA]
  | cons kv rest ih =>
    obtain ⟨k', v'⟩ := kv
    have h' : k ∉ k' :: keysOf rest := h
    have hk : k' ≠ k := fun he => h' (he ▸ List.mem_cons_self _ _)
    have hr : k ∉ keysOf rest := fun he => h' (List.mem_cons_of_mem _ he)
    simp [insertA, hk, ih hr]

theorem containsStr_iff {l : List String} {k : String} :
    containsStr l k = true ↔ k ∈ l := by
  induction l with
  | nil => simp [containsStr]
  | cons x rest ih =>
    by_cases hx : x = k
    · subst hx; simp [containsStr]
    · simp [containsStr, hx, ih, Ne.symm hx]

theorem containsStr_false_iff {l : List String} {k : String} :
    containsStr l k = false ↔ k ∉ l := by
  rw [← containsStr_iff]
  cases h : containsStr l k <;> simp

theorem mem_of_mem_insertA {α : Type} {d : Dict α} {k : String} {v : α}
    {p : String × α} (h : p ∈ insertA d k v) : p = (k, v) ∨ p ∈ d := by
  induction d with
  | nil => simp [insertA] at h; simp [h]
  | cons kv rest ih =>
    obtain ⟨k', v'⟩ := kv
    by_cases hk : k' = k
    · subst hk
      simp [insertA] at h
      rcases h with h | h
      · left; simp [h]
      · right; simp [h]
    · simp [insertA, hk] at h
      rcases h with h | h
      · right; simp [h]
      · rcases ih h with h' | h'
        · left; exact h'
        · right; exact List.mem_cons_of_mem _ h'

theorem buildNodesById_sound {nodes : List NodeData} {k : String} {n : NodeData}
    (h : lookupA (buildNodesById nodes) k = some n) : n.id = k ∧ n ∈ nodes := by
  have main : ∀ (l : List NodeData) (acc : Dict NodeData),
      (∀ p ∈ acc, p.2.id = p.1 ∧ (p.2 ∈ nodes ∨ p.2 ∈ l)) →
      (∀ m ∈ l, m ∈ nodes) →
      ∀ {k' : String} {n' : NodeData},
        lookupA (l.foldl (fun acc' m => insertA acc' m.id m) acc) k' = some n' →
        n'.id = k' ∧ n' ∈ nodes := by
    intro l
    induction l with
    | nil =>
      intro acc hacc _ k' n' hl
      have := hacc _ (lookupA_mem hl)
      exact ⟨this.1, by tauto⟩
    | cons m rest ih =>
      intro acc hacc hsub k' n' hl
      simp only [List.foldl_cons] at hl
      refine ih (insertA acc m.id m) ?_ (fun x hx => hsub x (List.mem_cons_of_mem _ hx)) hl
      intro p hp
      rcases mem_of_mem_insertA hp with hp' | hp'
      · subst hp'
        exact ⟨rfl, Or.inl (hsub m (List.mem_cons_self _ _))⟩
      · have := hacc p hp'
        tauto
  exact main nodes [] (by simp) (fun m hm => hm) h

theorem keysOf_insertA_eq {α β : Type} {d1 : Dict α} {d2 : Dict β}
    (h : keysOf d1 = keysOf d2) (k : String) (v1 : α) (v2 : β) :
    keysOf (insertA d1 k v1) = keysOf (insertA d2 k v2) := by
  induction d1 generalizing d2 with
  | nil =>
    cases d2 with
    | nil => simp [insertA, keysOf]
    | cons kv rest => simp [keysOf] at h
  | cons kv rest ih =>
    cases d2 with
    | nil => simp [keysOf] at h
    | cons kv2 rest2 =>
      obtain ⟨k1, w1⟩ := kv
      obtain ⟨k2, w2⟩ := kv2
      simp [keysOf] at h
      obtain ⟨hk, hrest⟩ := h
      subst hk
      by_cases hkk : k1 = k
      · subst hkk; simp [insertA, keysOf, hrest]
      · simp [insertA, hkk, keysOf]
        have := @ih rest2 (by simpa [keysOf] using hrest)
        simpa [keysOf] using this

/-! ## Registry-level claims -/

/-- C1.  `Registry.execute` never propagates an executor failure: for a
registered type whose executor raises an arbitrary error, the call returns
(it does not fail) a `NodeExecutionResult` with status `error`, the raised
message as the error text, empty outputs, and `started_at <= completed_at`. -/
theorem execute_node_never_propagates (reg : NodeRegistry) (nodeTypeId : String)
    (context : Ctx) (clock : Nat) (handler : Handler) (msg : String)
    (hfind : lookupA reg.executionHandlers nodeTypeId = some handler)
    (hraise : handler context = .error msg) :
    ∃ r : NodeExecutionResult,
      executeNode reg nodeTypeId context clock = .ok (r, clock + 3) ∧
      r.status = .error ∧ r.error = some msg ∧ r.outputs = [] ∧
      ∃ s e : Nat, r.startedAt = some s ∧ r.completedAt = some e ∧ s ≤ e := by
  have heq : executeNode reg nodeTypeId context clock =
      .ok ({ outputs := []
             status := .error
             error := some msg
             startedAt := some (clock + 1)
             completedAt := some (clock + 2) }, clock + 3) := by
    simp [executeNode, hfind, hraise]
  exact ⟨_, heq, rfl, rfl, rfl, clock + 1, clock + 2, rfl, rfl, by omega⟩

/-- Witness for C1: a concrete registry whose handler raises. -/
theorem execute_node_never_propagates_witness :
    ∃ r : NodeExecutionResult,
      executeNode ⟨[], [("t", fun _ => .error "boom")]⟩ "t" [] 0 = .ok (r, 3) ∧
      r.status = .error ∧ r.error = some "boom" ∧ r.outputs = [] ∧
      ∃ s e : Nat, r.startedAt = some s ∧ r.completedAt = some e ∧ s ≤ e :=
  execute_node_never_propagates ⟨[], [("t", fun _ => .error "boom")]⟩ "t" [] 0
    (fun _ => .error "boom") "boom" (by simp [lookupA]) rfl

/-- C8.  `Registry.execute` on an unregistered type id fails with the
"No execution handler found" `ValueError` rather than returning a result;
conversely, whenever the handler is found the call always returns a result
(catch-and-convert applies only to failures raised by a found executor). -/
theorem execute_node_unregistered_raises (reg : NodeRegistry)
    (nodeTypeId : String) (context : Ctx) (clock : Nat) :
    (lookupA reg.executionHandlers nodeTypeId = none →
      executeNode reg nodeTypeId context clock =
        .error ("No execution handler found for node type: " ++ nodeTypeId)) ∧
    (∀ handler, lookupA reg.executionHandlers nodeTypeId = some handler →
      ∃ r : NodeExecutionResult, ∃ clock' : Nat,
        executeNode reg nodeTypeId context clock = .ok (r, clock')) := by
  constructor
  · intro h
    simp [executeNode, h]
  · intro handler h
    cases hr : handler context with
    | ok result =>
      exact ⟨fillTiming result clock (clock + 1), clock + 2,
        by simp [executeNode, h, hr]⟩
    | error e =>
      exact ⟨{ outputs := []
               status := .error
               error := some e
               startedAt := some (clock + 1)
               completedAt := some (clock + 2) }, clock + 3,
        by simp [executeNode, h, hr]⟩

/-- Witness for C8: an empty registry on an unregistered id, and a
registered raising handler on a registered id. -/
theorem execute_node_unregistered_raises_witness :
    executeNode ⟨[], []⟩ "ghost" [] 0 =
      .error ("No execution handler found for node type: " ++ "ghost") ∧
    ∃ r : NodeExecutionResult, ∃ clock' : Nat,
      executeNode ⟨[], [("t", fun _ => .error "boom")]⟩ "t" [] 0 = .ok (r, clock') :=
  ⟨(execute_node_unregistered_raises ⟨[], []⟩ "ghost" [] 0).1 rfl,
   (execute_node_unregistered_raises ⟨[], [("t", fun _ => .error "boom")]⟩
      "t" [] 0).2 (fun _ => .error "boom") (by simp [lookupA])⟩

/-- C2.  The port-mapping rule of `_prepare_target_inputs`: when the source
node's captured outputs are present, a source port that exists as a key of
those outputs makes the target's input map exactly the single-entry map
`{targetPort: outputs[sourcePort]}`; a source port absent from the outputs
makes the target's entire input map the source's full outputs map, unkeyed
by port.  (Both are handed to the target wrapped under the `"inputs"` key.) -/
theorem prepare_target_inputs_port_mapping (sourceNodeId targetNodeId
    sourcePortId targetPortId : String) (nodeOutputs : Dict Ctx)
    (sourceOutputs : Ctx)
    (hsrc : lookupA nodeOutputs sourceNodeId = some sourceOutputs) :
    (∀ v, lookupA sourceOutputs sourcePortId = some v →
      prepareTargetInputs sourceNodeId targetNodeId sourcePortId targetPortId
        nodeOutputs = [("inputs", Value.obj [(targetPortId, v)])]) ∧
    (lookupA sourceOutputs sourcePortId = none →
      prepareTargetInputs sourceNodeId targetNodeId sourcePortId targetPortId
        nodeOutputs = [("inputs", Value.obj sourceOutputs)]) := by
  constructor
  · intro v hv
    simp [prepareTargetInputs, hsrc, hv]
  · intro hv
    simp [prepareTargetInputs, hsrc, hv]

/-- Witness for C2, matching the spec's §8 examples: outputs
`{"a": 1, "b": 2}` with `sourcePort="a"`, `targetPort="x"` give `{"x": 1}`;
outputs `{"a": 1}` with `sourcePort="missing"` give the full `{"a": 1}`. -/
theorem prepare_target_inputs_port_mapping_witness :
    prepareTargetInputs "S" "T" "a" "x"
        [("S", [("a", Value.num 1), ("b", Value.num 2)])] =
      [("inputs", Value.obj [("x", Value.num 1)])] ∧
    prepareTargetInputs "S" "T" "missing" "x" [("S", [("a", Value.num 1)])] =
      [("inputs", Value.obj [("a", Value.num 1)])] :=
  ⟨(prepare_target_inputs_port_mapping "S" "T" "a" "x" _
      [("a", Value.num 1), ("b", Value.num 2)] (by simp [lookupA])).1
      (Value.num 1) (by simp [lookupA]),
   (prepare_target_inputs_port_mapping "S" "T" "missing" "x" _
      [("a", Value.num 1)] (by simp [lookupA])).2 (by simp [lookupA])⟩

/-! ## Traversal invariants: visited-guard, termination, at-most-once -/

/-- The ids of the flow's loaded node instances. -/
def nodeIds (flow : FlowData) : List String := flow.nodes.map NodeData.id

/-- Invariant of the traversal state: the result-map keys are duplicate-free,
they coincide with the visited set `executed_nodes`, and every visited id is
the id of a loaded node instance. -/
def StInv (flow : FlowData) (st : ExecState) : Prop :=
  (keysOf st.results).Nodup ∧
  (∀ k, k ∈ keysOf st.results ↔ k ∈ st.executed) ∧
  (∀ k ∈ st.executed, k ∈ nodeIds flow)

/-- The number of loaded node ids not yet visited: the measure that bounds
the recursion depth of `_execute_connected_nodes`. -/
def unexec (flow : FlowData) (st : ExecState) : Nat :=
  ((nodeIds flow).toFinset \ st.executed.toFinset).card

theorem unexec_step (flow : FlowData) (st : ExecState) {t : String}
    (hmem : t ∈ nodeIds flow) (hnot : t ∉ st.executed)
    (results' : Dict NodeExecutionResult) (outputs' : Dict Ctx) (clock' : Nat) :
    unexec flow { results := results', executed := t :: st.executed,
                  outputs := outputs', clock := clock' } < unexec flow st := by
  apply Finset.card_lt_card
  rw [Finset.ssubset_def]
  constructor
  · intro x hx
    rw [Finset.mem_sdiff] at hx ⊢
    refine ⟨hx.1, fun hc => hx.2 ?_⟩
    rw [List.mem_toFinset] at hc ⊢
    exact List.mem_cons_of_mem _ hc
  · intro hsub
    have ht : t ∈ (nodeIds flow).toFinset \ st.executed.toFinset := by
      rw [Finset.mem_sdiff, List.mem_toFinset, List.mem_toFinset]
      exact ⟨hmem, hnot⟩
    have h2 := hsub ht
    exact (Finset.mem_sdiff.mp h2).2 (by simp)

theorem stInv_step (flow : FlowData) (st : ExecState) {t : String}
    {tn : NodeData} (hinv : StInv flow st) (hnot : t ∉ st.executed)
    (hfind : lookupA (buildNodesById flow.nodes) t = some tn)
    (r : NodeExecutionResult) (outputs' : Ctx) (clock' : Nat) :
    StInv flow { results := insertA st.results t r,
                 executed := t :: st.executed,
                 outputs := insertA st.outputs t outputs',
                 clock := clock' } := by
  obtain ⟨hnd, hiff, hids⟩ := hinv
  have htk : t ∉ keysOf st.results := fun hm => hnot ((hiff t).1 hm)
  have hkeys : keysOf (insertA st.results t r) = keysOf st.results ++ [t] := by
    rw [insertA_of_not_mem r htk]
    simp [keysOf]
  refine ⟨?_, ?_, ?_⟩
  · rw [hkeys, List.nodup_append]
    refine ⟨hnd, List.nodup_singleton t, ?_⟩
    intro a ha hat
    exact htk (List.mem_singleton.mp hat ▸ ha)
  · intro k
    show k ∈ keysOf (insertA st.results t r) ↔ k ∈ t :: st.executed
    rw [hkeys, List.mem_append, List.mem_singleton, List.mem_cons]
    rw [hiff k]
    tauto
  · intro k hk
    rcases List.mem_cons.mp hk with h | h
    · obtain ⟨hid, hmemn⟩ := buildNodesById_sound hfind
      subst h
      exact hid ▸ List.mem_map_of_mem NodeData.id hmemn
    · exact hids k h

theorem unexec_pos (flow : FlowData) (st : ExecState) {t : String}
    (hmem : t ∈ nodeIds flow) (hnot : t ∉ st.executed) :
    0 < unexec flow st := by
  apply Finset.card_pos.mpr
  refine ⟨t, ?_⟩
  rw [Finset.mem_sdiff, List.mem_toFinset, List.mem_toFinset]
  exact ⟨hmem, hnot⟩

/-- Main induction over `_execute_connected_nodes`: with stack budget at
least the number of unvisited nodes, the connection-processing loop always
completes, preserves the state invariant, only grows the visited set, and
never increases the number of unvisited nodes.  This is the source's
termination argument: each recursive call is made immediately after marking
a previously-unvisited node as visited. -/
theorem execConnList_main (reg : NodeRegistry) (flow : FlowData) :
    ∀ (fuel : Nat) (conns : List ConnectionData) (st : ExecState),
      StInv flow st → unexec flow st ≤ fuel →
      ∃ st', execConnList reg flow fuel conns st = some st' ∧
        StInv flow st' ∧
        (∀ x ∈ st.executed, x ∈ st'.executed) ∧
        unexec flow st' ≤ unexec flow st := by
  intro fuel
  induction fuel with
  | zero =>
    intro conns
    induction conns with
    | nil =>
      intro st hinv _
      exact ⟨st, by simp [execConnList], hinv, fun x hx => hx, le_refl _⟩
    | cons c rest ih =>
      intro st hinv hb
      cases hc : containsStr st.executed c.targetNodeId with
      | true =>
        obtain ⟨st', h1, h2, h3, h4⟩ := ih st hinv hb
        exact ⟨st', by simp [execConnList, hc, h1], h2, h3, h4⟩
      | false =>
        cases hfind : lookupA (buildNodesById flow.nodes) c.targetNodeId with
        | none =>
          obtain ⟨st', h1, h2, h3, h4⟩ := ih st hinv hb
          exact ⟨st', by simp [execConnList, hc, hfind, h1], h2, h3, h4⟩
        | some tn =>
          exfalso
          have hmem : c.targetNodeId ∈ nodeIds flow := by
            obtain ⟨hid, hmemn⟩ := buildNodesById_sound hfind
            exact hid ▸ List.mem_map_of_mem NodeData.id hmemn
          have hnot : c.targetNodeId ∉ st.executed := containsStr_false_iff.mp hc
          have := unexec_pos flow st hmem hnot
          omega
  | succ n ihf =>
    intro conns
    induction conns with
    | nil =>
      intro st hinv _
      exact ⟨st, by simp [execConnList], hinv, fun x hx => hx, le_refl _⟩
    | cons c rest ih =>
      intro st hinv hb
      cases hc : containsStr st.executed c.targetNodeId with
      | true =>
        obtain ⟨st', h1, h2, h3, h4⟩ := ih st hinv hb
        exact ⟨st', by simp [execConnList, hc, h1], h2, h3, h4⟩
      | false =>
        cases hfind : lookupA (buildNodesById flow.nodes) c.targetNodeId with
        | none =>
          obtain ⟨st', h1, h2, h3, h4⟩ := ih st hinv hb
          exact ⟨st', by simp [execConnList, hc, hfind, h1], h2, h3, h4⟩
        | some tn =>
          have hmem : c.targetNodeId ∈ nodeIds flow := by
            obtain ⟨hid, hmemn⟩ := buildNodesById_sound hfind
            exact hid ▸ List.mem_map_of_mem NodeData.id hmemn
          have hnot : c.targetNodeId ∉ st.executed := containsStr_false_iff.mp hc
          set st' : ExecState := stepState reg c tn st with hst'
          have hinv' : StInv flow st' :=
            stInv_step flow st hinv hnot hfind _ _ _
          have hdec : unexec flow st' < unexec flow st :=
            unexec_step flow st hmem hnot _ _ _
          have hb' : unexec flow st' ≤ n := by omega
          obtain ⟨st'', h1, h2, h3, h4⟩ := ihf
            (flow.connections.filter (fun c' => c'.sourceNodeId == c.targetNodeId))
            st' hinv' hb'
          obtain ⟨stOut, g1, g2, g3, g4⟩ := ih st'' h2 (by omega)
          refine ⟨stOut, ?_, g2, ?_, by omega⟩
          · have hinner : execConnectedNodes reg flow (n + 1) c.targetNodeId st' =
                some st'' := by
              simp [execConnectedNodes, h1]
            simp [execConnList, hc, hfind, ← hst', hinner, g1]
          · intro x hx
            exact g3 x (h3 x (List.mem_cons_of_mem _ hx))

/-- Totality and invariant for one whole modular run: the stack budget
`flow.nodes.length + 1` chosen in `executeFlowModular` is always enough. -/
theorem executeFlowModular_main (reg : NodeRegistry) (flow : FlowData)
    (triggerNode : NodeData) (htr : triggerNode ∈ flow.nodes)
    (triggerInputs : Ctx) (clock : Nat) :
    ∃ st, executeFlowModular reg triggerNode flow triggerInputs clock = some st ∧
      StInv flow st ∧ triggerNode.id ∈ st.executed := by
  unfold executeFlowModular
  set st0 := initState reg triggerNode triggerInputs clock with hst0
  have hinv0 : StInv flow st0 := by
    refine ⟨?_, ?_, ?_⟩
    · simp [hst0, initState, keysOf]
    · intro k
      simp [hst0, initState, keysOf]
    · intro k hk
      simp [hst0, initState] at hk
      exact hk ▸ List.mem_map_of_mem NodeData.id htr
  have hb : unexec flow st0 ≤ flow.nodes.length := by
    have h1 : unexec flow st0 ≤ (nodeIds flow).toFinset.card :=
      Finset.card_le_card (Finset.sdiff_subset)
    have h2 : (nodeIds flow).toFinset.card ≤ (nodeIds flow).length :=
      List.toFinset_card_le _
    have h3 : (nodeIds flow).length = flow.nodes.length := by simp [nodeIds]
    omega
  obtain ⟨st', h1, h2, h3, _⟩ := execConnList_main reg flow flow.nodes.length
    (flow.connections.filter (fun c => c.sourceNodeId == triggerNode.id))
    st0 hinv0 hb
  refine ⟨st', ?_, h2, h3 triggerNode.id (by simp [hst0, initState])⟩
  simp [execConnectedNodes, h1]

/-- C4.  For every flow graph — cyclic graphs and convergent multi-path
graphs included — the traversal of `executeFlow` terminates (the recursion
never exceeds the stack budget of one frame per loaded node, so the run is
never cut off), and each node id appears at most once as a key of the
execution result map: each node instance is executed at most once per run. -/
theorem execute_flow_terminates_and_runs_each_node_once
    (reg : NodeRegistry) (flow : FlowData) (triggerInputs : Ctx) (clock : Nat) :
    executeFlow reg flow triggerInputs clock ≠ Except.ok none ∧
    ∀ s, executeFlow reg flow triggerInputs clock = Except.ok (some s) →
      (keysOf s.results).Nodup := by
  unfold executeFlow
  cases hft : findTriggerNodesModular reg flow.nodes with
  | nil => exact ⟨by simp, by simp⟩
  | cons t ts =>
    cases ts with
    | nil =>
      have htr : t ∈ flow.nodes := by
        have hm : t ∈ findTriggerNodesModular reg flow.nodes := by
          rw [hft]
          exact List.mem_cons_self _ _
        exact List.mem_of_mem_filter hm
      obtain ⟨st, h1, h2, _⟩ :=
        executeFlowModular_main reg flow t htr triggerInputs clock
      simp only [h1]
      refine ⟨by simp, ?_⟩
      intro s hs
      simp only [Except.ok.injEq, Option.some.injEq] at hs
      subst hs
      exact h2.1
    | cons t2 rest => exact ⟨by simp, by simp⟩

/-- C10.  A connection whose `targetNodeId` is not among the flow's loaded
node instances is skipped without failing and traversal continues with the
remaining connections; consequently every key of the returned execution
result map is the id of a node instance belonging to the flow. -/
theorem dangling_connection_skipped_and_result_keys_are_flow_nodes
    (reg : NodeRegistry) (flow : FlowData) (triggerInputs : Ctx) (clock : Nat) :
    (∀ (fuel : Nat) (conn : ConnectionData) (rest : List ConnectionData)
        (st : ExecState),
      containsStr st.executed conn.targetNodeId = false →
      lookupA (buildNodesById flow.nodes) conn.targetNodeId = none →
      execConnList reg flow fuel (conn :: rest) st =
        execConnList reg flow fuel rest st) ∧
    (∀ s, executeFlow reg flow triggerInputs clock = Except.ok (some s) →
      ∀ k ∈ keysOf s.results, k ∈ nodeIds flow) := by
  constructor
  · intro fuel conn rest st hc hfind
    simp [execConnList, hc, hfind]
  · unfold executeFlow
    cases hft : findTriggerNodesModular reg flow.nodes with
    | nil => simp
    | cons t ts =>
      cases ts with
      | nil =>
        have htr : t ∈ flow.nodes := by
          have hm : t ∈ findTriggerNodesModular reg flow.nodes := by
            rw [hft]
            exact List.mem_cons_self _ _
          exact List.mem_of_mem_filter hm
        obtain ⟨st, h1, h2, _⟩ :=
          executeFlowModular_main reg flow t htr triggerInputs clock
        simp only [h1]
        intro s hs
        simp only [Except.ok.injEq, Option.some.injEq] at hs
        subst hs
        intro k hk
        exact h2.2.2 k ((h2.2.1 k).1 hk)
      | cons t2 rest => simp

/-- The trigger decision of one node depends only on the registry's node
types, not on its execution handlers. -/
theorem isTriggerNode_congr {reg reg' : NodeRegistry}
    (h : reg'.nodeTypes = reg.nodeTypes) :
    isTriggerNode reg' = isTriggerNode reg := by
  funext n
  simp [isTriggerNode, getNodeType, h]

/-- C3.  With zero trigger-category nodes, `execute_flow` fails with the
"No trigger node found" error; with two or more, it fails with the
"Multiple trigger nodes found" error naming all offending node ids.  In
both cases the result holds for every registry sharing the same node types,
whatever its execution handlers do — no node is executed and no per-node
result map is produced (the error carries none). -/
theorem execute_flow_trigger_count_validation (reg : NodeRegistry)
    (flow : FlowData) (triggerInputs : Ctx) (clock : Nat) :
    (findTriggerNodesModular reg flow.nodes = [] →
      ∀ reg' : NodeRegistry, reg'.nodeTypes = reg.nodeTypes →
        executeFlow reg' flow triggerInputs clock =
          Except.error FlowExecutionError.noTriggerFound) ∧
    (2 ≤ (findTriggerNodesModular reg flow.nodes).length →
      ∀ reg' : NodeRegistry, reg'.nodeTypes = reg.nodeTypes →
        executeFlow reg' flow triggerInputs clock =
          Except.error (FlowExecutionError.multipleTriggers
            ((findTriggerNodesModular reg flow.nodes).map NodeData.id))) := by
  constructor
  · intro hft reg' hty
    have hsame : findTriggerNodesModular reg' flow.nodes =
        findTriggerNodesModular reg flow.nodes := by
      simp [findTriggerNodesModular, isTriggerNode_congr hty]
    unfold executeFlow
    rw [hsame, hft]
  · intro hlen reg' hty
    have hsame : findTriggerNodesModular reg' flow.nodes =
        findTriggerNodesModular reg flow.nodes := by
      simp [findTriggerNodesModular, isTriggerNode_congr hty]
    unfold executeFlow
    rw [hsame]
    cases hft : findTriggerNodesModular reg flow.nodes with
    | nil => rw [hft] at hlen; simp at hlen
    | cons t ts =>
      cases ts with
      | nil => rw [hft] at hlen; simp at hlen
      | cons t2 rest => rfl


/-- C9.  When no node of the flow resolves to a trigger-category type —
in particular when the would-be trigger node references a type id that is
not registered, so that the registry lookup raises and
`_find_trigger_nodes_modular` catches the error and silently skips the
node — `execute_flow` fails with the graph-level "No trigger node found"
error, not with the type-level "Node type not found" error. -/
theorem unresolvable_trigger_type_gives_graph_level_error (reg : NodeRegistry)
    (flow : FlowData) (triggerInputs : Ctx) (clock : Nat)
    (h : ∀ n ∈ flow.nodes, ∀ t, lookupA reg.nodeTypes n.typeId = some t →
      t.category ≠ NodeCategory.trigger) :
    executeFlow reg flow triggerInputs clock =
      Except.error FlowExecutionError.noTriggerFound := by
  have hft : findTriggerNodesModular reg flow.nodes = [] := by
    rw [findTriggerNodesModular, List.filter_eq_nil_iff]
    intro n hn
    cases hl : lookupA reg.nodeTypes n.typeId with
    | none => simp [isTriggerNode, getNodeType, hl]
    | some t => simp [isTriggerNode, getNodeType, hl, h n hn t hl]
  unfold executeFlow
  rw [hft]

/-! ## Concrete fixtures used by the witnesses and counterexamples -/

/-- A small registry: one trigger type, one processor type whose handler
echoes its execution context as its outputs. -/
def regW : NodeRegistry :=
  ⟨[("trig", ⟨"trig", "Trig", NodeCategory.trigger, "1.0"⟩),
    ("proc", ⟨"proc", "Proc", NodeCategory.processor, "1.0"⟩)],
   [("trig", fun _ => .ok { outputs := [("a", Value.str "A"), ("b", Value.str "B")]
                            status := .success }),
    ("proc", fun ctx => .ok { outputs := ctx, status := .success })]⟩

/-- A flow with a single processor node and no trigger node. -/
def flowNoTrigger : FlowData := ⟨1, "f0", [⟨"P", "proc", "P", []⟩], []⟩

/-- A flow with two trigger nodes. -/
def flowTwoTriggers : FlowData :=
  ⟨2, "f2", [⟨"T1", "trig", "T1", []⟩, ⟨"T2", "trig", "T2", []⟩], []⟩

/-- A flow consisting of a single trigger node with no connections. -/
def flowTrigOnly : FlowData := ⟨3, "f1", [⟨"T", "trig", "T", []⟩], []⟩

/-- The summary produced by running `flowTrigOnly` under `regW`. -/
def summaryTrigOnly : FlowSummary :=
  { flowId := 3
    flowName := "f1"
    triggerNodeId := "T"
    results := [("T", { outputs := [("a", Value.str "A"), ("b", Value.str "B")]
                        status := .success
                        error := none
                        executionTimeMs := some 1
                        startedAt := some 0
                        completedAt := some 1
                        logs := [] })]
    executedAt := 2
    totalNodesExecuted := 1 }

/-- A flow whose sole node references the unregistered type id
`voice-input`. -/
def flowUnregisteredTrigger : FlowData :=
  ⟨4, "f4", [⟨"V", "voice-input", "V", []⟩], []⟩

/-- A flow with a connection to a target node id that was never loaded. -/
def flowDangling : FlowData :=
  ⟨5, "f5", [⟨"T", "trig", "T", []⟩, ⟨"X", "proc", "X", []⟩],
   [⟨"c1", "T", "GHOST", "a", "p"⟩, ⟨"c2", "T", "X", "b", "q"⟩]⟩

/-- Witness for C3: zero triggers hit the "no trigger" error; two triggers
hit the "multiple triggers" error naming both node ids. -/
theorem execute_flow_trigger_count_validation_witness :
    executeFlow regW flowNoTrigger [] 0 =
      Except.error FlowExecutionError.noTriggerFound ∧
    executeFlow regW flowTwoTriggers [] 0 =
      Except.error (FlowExecutionError.multipleTriggers ["T1", "T2"]) :=
  ⟨(execute_flow_trigger_count_validation regW flowNoTrigger [] 0).1
      rfl regW rfl,
   (execute_flow_trigger_count_validation regW flowTwoTriggers [] 0).2
      (by decide) regW rfl⟩

/-- Witness for C4 at a concrete flow: the run completes with a summary
whose result-map keys are duplicate-free. -/
theorem execute_flow_terminates_and_runs_each_node_once_witness :
    (keysOf summaryTrigOnly.results).Nodup ∧
    executeFlow regW flowTrigOnly [] 0 ≠ Except.ok none :=
  ⟨(execute_flow_terminates_and_runs_each_node_once regW flowTrigOnly [] 0).2
      summaryTrigOnly
      (by simp [executeFlow, findTriggerNodesModular, isTriggerNode, getNodeType,
            regW, flowTrigOnly, executeFlowModular, initState, executeNodeModular,
            getStoredSettings, executeNode, fillTiming, execConnectedNodes,
            execConnList, stepState, buildNodesById, insertA, containsStr,
            prepareTargetInputs, dictUpdate, lookupA, summaryTrigOnly]),
   (execute_flow_terminates_and_runs_each_node_once regW flowTrigOnly [] 0).1⟩

/-- Witness for C9: the run whose only (would-be trigger) node has the
unregistered type id `voice-input` ends in the graph-level error. -/
theorem unresolvable_trigger_type_gives_graph_level_error_witness :
    executeFlow regW flowUnregisteredTrigger [] 0 =
      Except.error FlowExecutionError.noTriggerFound :=
  unresolvable_trigger_type_gives_graph_level_error regW
    flowUnregisteredTrigger [] 0
    (by
      intro n hn t ht
      simp [flowUnregisteredTrigger] at hn
      subst hn
      simp [regW, lookupA] at ht)

/-! ## Claim C10: dangling connections -/

/-- The state after executing the trigger of `flowDangling` under `regW`. -/
def stAfterTrigger : ExecState :=
  { results := [("T", { outputs := [("a", Value.str "A"), ("b", Value.str "B")]
                        status := .success
                        error := none
                        executionTimeMs := some 1
                        startedAt := some 0
                        completedAt := some 1
                        logs := [] })]
    executed := ["T"]
    outputs := [("T", [("a", Value.str "A"), ("b", Value.str "B")])]
    clock := 2 }

/-- The summary produced by running `flowDangling` under `regW`: the
connection to the unloaded id `GHOST` is skipped, the one to `X` runs. -/
def summaryDangling : FlowSummary :=
  { flowId := 5
    flowName := "f5"
    triggerNodeId := "T"
    results := [("T", { outputs := [("a", Value.str "A"), ("b", Value.str "B")]
                        status := .success
                        error := none
                        executionTimeMs := some 1
                        startedAt := some 0
                        completedAt := some 1
                        logs := [] }),
                ("X", { outputs := [("inputs", Value.obj [("q", Value.str "B")])]
                        status := .success
                        error := none
                        executionTimeMs := some 1
                        startedAt := some 2
                        completedAt := some 3
                        logs := [] })]
    executedAt := 4
    totalNodesExecuted := 2 }

/-- Witness for C10: the dangling connection of `flowDangling` is skipped
(the loop step equals the loop on the remaining connections), the run still
completes, and the key "X" of its result map is a loaded node id. -/
theorem dangling_connection_skipped_witness :
    execConnList regW flowDangling 1 [⟨"c1", "T", "GHOST", "a", "p"⟩]
        stAfterTrigger =
      execConnList regW flowDangling 1 [] stAfterTrigger ∧
    "X" ∈ nodeIds flowDangling :=
  ⟨(dangling_connection_skipped_and_result_keys_are_flow_nodes regW
      flowDangling [] 0).1 1 ⟨"c1", "T", "GHOST", "a", "p"⟩ [] stAfterTrigger
      rfl rfl,
   (dangling_connection_skipped_and_result_keys_are_flow_nodes regW
      flowDangling [] 0).2 summaryDangling
      (by simp [executeFlow, findTriggerNodesModular, isTriggerNode, getNodeType,
            regW, flowDangling, executeFlowModular, initState, executeNodeModular,
            getStoredSettings, executeNode, fillTiming, execConnectedNodes,
            execConnList, stepState, buildNodesById, insertA, containsStr,
            prepareTargetInputs, dictUpdate, lookupA, summaryDangling])
      "X" (by decide)⟩

/-! ## Claim C5: multiple incoming connections are not merged -/

/-- Projection of a run onto the outputs recorded for one node id.  For the
echo processor of `regW`, whose outputs are its execution context, this
exhibits exactly the inputs the node was executed with. -/
def resultOutputsAt (x : Except FlowExecutionError (Option FlowSummary))
    (nodeId : String) : Option Ctx :=
  match x with
  | .ok (some s) => (lookupA s.results nodeId).map NodeExecutionResult.outputs
  | _ => none

/-- Modelled from the spec (for comparison with the source behaviour):
the per-connection input map of the spec's port-mapping rule — the
single-entry map when the source port is present, the full outputs map
otherwise. -/
def specPerConnectionInputs (conn : ConnectionData) (nodeOutputs : Dict Ctx) :
    Ctx :=
  match lookupA nodeOutputs conn.sourceNodeId with
  | none => []
  | some sourceOutputs =>
    match lookupA sourceOutputs conn.sourcePortId with
    | some v => [(conn.targetPortId, v)]
    | none => sourceOutputs

/-- Modelled from the spec: the "combined input map" the spec's section 4.2
claims a target with several incoming connections executes with — the
per-connection maps merged in processing order, last write winning. -/
def specMergedTargetInputs (incoming : List ConnectionData)
    (nodeOutputs : Dict Ctx) : Ctx :=
  incoming.foldl
    (fun acc conn => dictUpdate acc (specPerConnectionInputs conn nodeOutputs))
    []

/-- A flow in which the target `X` has two incoming connections from the
trigger `T`, on source ports `a` and `b`. -/
def flowTwoIncoming : FlowData :=
  ⟨7, "f7", [⟨"T", "trig", "T", []⟩, ⟨"X", "proc", "X", []⟩],
   [⟨"c1", "T", "X", "a", "p"⟩, ⟨"c2", "T", "X", "b", "q"⟩]⟩

/-- Counterexample to C5: in `flowTwoIncoming` the echo node `X` executes
with the input map of the first connection only, `{p: A}`, while the
spec's merge of its two incoming connections would be `{p: A, q: B}`;
the two differ, so the per-connection maps are not merged into the
target's input map before it executes. -/
theorem multiple_incoming_not_merged_counterexample :
    resultOutputsAt (executeFlow regW flowTwoIncoming [] 0) "X" =
      some [("inputs", Value.obj [("p", Value.str "A")])] ∧
    specMergedTargetInputs
        (flowTwoIncoming.connections.filter (fun c => c.targetNodeId == "X"))
        [("T", [("a", Value.str "A"), ("b", Value.str "B")])] =
      [("p", Value.str "A"), ("q", Value.str "B")] ∧
    Value.obj [("p", Value.str "A")] ≠
      Value.obj [("p", Value.str "A"), ("q", Value.str "B")] := by
  refine ⟨?_, by rfl, by simp⟩
  simp [executeFlow, findTriggerNodesModular, isTriggerNode, getNodeType,
    regW, flowTwoIncoming, executeFlowModular, initState, executeNodeModular,
    getStoredSettings, executeNode, fillTiming, execConnectedNodes,
    execConnList, stepState, buildNodesById, insertA, containsStr,
    prepareTargetInputs, dictUpdate, lookupA, resultOutputsAt]

/-- A registry like `regW` whose trigger emits the given values on ports
`a` and `b`. -/
def regTwoPorts (vA vB : Value) : NodeRegistry :=
  ⟨[("trig", ⟨"trig", "Trig", NodeCategory.trigger, "1.0"⟩),
    ("proc", ⟨"proc", "Proc", NodeCategory.processor, "1.0"⟩)],
   [("trig", fun _ => .ok { outputs := [("a", vA), ("b", vB)]
                            status := .success }),
    ("proc", fun ctx => .ok { outputs := ctx, status := .success })]⟩

/-- C5 as amended: when several connections lead to the same target, the
target executes when the first of them is processed, with that single
connection's input map only; a connection reaching an already-executed
target is skipped entirely, so no merging into a combined input map takes
place.  (Stated as the general skip rule of the traversal loop plus the
first-connection-only input map on the two-incoming-connection flow, for
arbitrary routed values.) -/
theorem multiple_incoming_first_connection_wins (vA vB : Value) :
    (∀ (reg : NodeRegistry) (flow : FlowData) (fuel : Nat)
        (conn : ConnectionData) (rest : List ConnectionData) (st : ExecState),
      containsStr st.executed conn.targetNodeId = true →
      execConnList reg flow fuel (conn :: rest) st =
        execConnList reg flow fuel rest st) ∧
    resultOutputsAt (executeFlow (regTwoPorts vA vB) flowTwoIncoming [] 0)
        "X" = some [("inputs", Value.obj [("p", vA)])] := by
  constructor
  · intro reg flow fuel conn rest st hc
    simp [execConnList, hc]
  · simp [executeFlow, findTriggerNodesModular, isTriggerNode, getNodeType,
      regTwoPorts, flowTwoIncoming, executeFlowModular, initState, executeNodeModular,
      getStoredSettings, executeNode, fillTiming, execConnectedNodes,
      execConnList, stepState, buildNodesById, insertA, containsStr,
      prepareTargetInputs, dictUpdate, lookupA, resultOutputsAt]

/-- Witness for the amended C5: with the concrete values `A`, `B`, the
already-executed target `X` is skipped by the loop and `X`'s input map came
from the first connection only. -/
theorem multiple_incoming_first_connection_wins_witness :
    execConnList regW flowTwoIncoming 1 [⟨"c2", "T", "X", "b", "q"⟩]
        { results := stAfterTrigger.results
          executed := ["X", "T"]
          outputs := stAfterTrigger.outputs
          clock := 2 } =
      execConnList regW flowTwoIncoming 1 []
        { results := stAfterTrigger.results
          executed := ["X", "T"]
          outputs := stAfterTrigger.outputs
          clock := 2 } ∧
    resultOutputsAt
        (executeFlow (regTwoPorts (Value.str "A") (Value.str "B"))
          flowTwoIncoming [] 0) "X" =
      some [("inputs", Value.obj [("p", Value.str "A")])] :=
  ⟨(multiple_incoming_first_connection_wins (Value.str "A") (Value.str "B")).1
      regW flowTwoIncoming 1 ⟨"c2", "T", "X", "b", "q"⟩ []
      { results := stAfterTrigger.results
        executed := ["X", "T"]
        outputs := stAfterTrigger.outputs
        clock := 2 } rfl,
   (multiple_incoming_first_connection_wins (Value.str "A") (Value.str "B")).2⟩

/-! ## Claim C6: unregistered node type mid-run -/

/-- Projection of a run onto the keys of the per-node result map, in
execution order. -/
def runResultKeys (x : Except FlowExecutionError (Option FlowSummary)) :
    Option (List String) :=
  match x with
  | .ok (some s) => some (keysOf s.results)
  | _ => none

/-- Projection of a run onto the `(status, error)` recorded for one node. -/
def resultStatusAt (x : Except FlowExecutionError (Option FlowSummary))
    (nodeId : String) : Option (NodeExecutionStatus × Option String) :=
  match x with
  | .ok (some s) => (lookupA s.results nodeId).map (fun r => (r.status, r.error))
  | _ => none

/-- A registry with a trigger type and an action type, and no binding at all
for the type id `ghost`. -/
def regC6 : NodeRegistry :=
  ⟨[("trig", ⟨"trig", "Trig", NodeCategory.trigger, "1.0"⟩),
    ("act", ⟨"act", "Act", NodeCategory.action, "1.0"⟩)],
   [("trig", fun _ => .ok { outputs := [("o", Value.str "O")]
                            status := .success }),
    ("act", fun ctx => .ok { outputs := ctx, status := .success })]⟩

/-- A chain `T -> X -> Y` in which the middle node `X` references the
unregistered type id `ghost`. -/
def flowGhostMid : FlowData :=
  ⟨6, "f6",
   [⟨"T", "trig", "T", []⟩, ⟨"X", "ghost", "X", []⟩, ⟨"Y", "act", "Y", []⟩],
   [⟨"c1", "T", "X", "o", "i"⟩, ⟨"c2", "X", "Y", "o2", "i2"⟩]⟩

/-- Counterexample to C6: in `flowGhostMid` the node `X` references an
unregistered type id, yet the run is not aborted: the registry's NotFound
failure is recorded as `X`'s own `error` result and the run continues past
`X` — its successor `Y` appears in the result map (the run's keys are
`T, X, Y`), contradicting the claim that the lookup failure is fatal for
the run. -/
theorem unregistered_type_not_fatal_counterexample :
    runResultKeys (executeFlow regC6 flowGhostMid [] 0) =
      some ["T", "X", "Y"] ∧
    resultStatusAt (executeFlow regC6 flowGhostMid [] 0) "X" =
      some (NodeExecutionStatus.error,
        some ("No execution handler found for node type: " ++ "ghost")) := by
  constructor <;>
    simp [executeFlow, findTriggerNodesModular, isTriggerNode, getNodeType,
      regC6, flowGhostMid, executeFlowModular, initState, executeNodeModular,
      getStoredSettings, executeNode, fillTiming, execConnectedNodes,
      execConnList, stepState, buildNodesById, insertA, containsStr,
      prepareTargetInputs, dictUpdate, lookupA, runResultKeys,
      resultStatusAt, keysOf]

/-- C6 as amended: a node instance referencing an unregistered type id is
not fatal for the run — `_execute_node_modular` catches the registry's
NotFound failure and converts it into that node's own `status="error"`
result whose message names the unresolvable type; traversal then continues
into the node's successors exactly as for any other error result. -/
theorem unregistered_type_caught_as_node_error (reg : NodeRegistry)
    (node : NodeData) (executionContext : Ctx) (clock : Nat)
    (storedSettings : Ctx)
    (hset : getStoredSettings node = some storedSettings)
    (hh : lookupA reg.executionHandlers node.typeId = none) :
    executeNodeModular reg node executionContext clock =
      ({ outputs := []
         status := .error
         error := some ("No execution handler found for node type: " ++
           node.typeId)
         startedAt := some clock
         completedAt := some (clock + 1) }, clock + 2) := by
  simp [executeNodeModular, hset, executeNode, hh]

/-- Witness for the amended C6: the `ghost`-typed node of `flowGhostMid`
is converted into a node-level error result. -/
theorem unregistered_type_caught_as_node_error_witness :
    executeNodeModular regC6 ⟨"X", "ghost", "X", []⟩ [] 2 =
      ({ outputs := []
         status := .error
         error := some ("No execution handler found for node type: " ++
           "ghost")
         startedAt := some 2
         completedAt := some 3 }, 4) :=
  unregistered_type_caught_as_node_error regC6 ⟨"X", "ghost", "X", []⟩ [] 2
    [] rfl rfl


/-! ## Claim C7: an error result does not halt traversal -/

/-- Agreement of two registries on everything the traversal can observe of
a node execution: on every node, context and clock the per-node wrapper
produces the same outputs and consumes the same clock ticks, while the
result's status, error message and timing fields may differ arbitrarily. -/
def ExecAgrees (reg1 reg2 : NodeRegistry) : Prop :=
  ∀ (node : NodeData) (ctx : Ctx) (clock : Nat),
    (executeNodeModular reg1 node ctx clock).1.outputs =
      (executeNodeModular reg2 node ctx clock).1.outputs ∧
    (executeNodeModular reg1 node ctx clock).2 =
      (executeNodeModular reg2 node ctx clock).2

/-- The traversal-visible projection of the execution state: visited set,
routed outputs, result-map keys (in execution order) and clock — everything
except the statuses, errors and timings stored in the results. -/
def stProj (st : ExecState) : List String × Dict Ctx × List String × Nat :=
  (st.executed, st.outputs, keysOf st.results, st.clock)

theorem stProj_stepState (reg1 reg2 : NodeRegistry)
    (hagree : ExecAgrees reg1 reg2) (c : ConnectionData) (tn : NodeData)
    {st1 st2 : ExecState} (hp : stProj st1 = stProj st2) :
    stProj (stepState reg1 c tn st1) = stProj (stepState reg2 c tn st2) := by
  simp only [stProj, Prod.mk.injEq] at hp
  obtain ⟨hex, hout, hkeys, hclk⟩ := hp
  obtain ⟨ho, hcl⟩ := hagree tn
    (prepareTargetInputs c.sourceNodeId c.targetNodeId c.sourcePortId
      c.targetPortId st2.outputs) st2.clock
  simp only [stepState, stProj]
  rw [hex, hout, hclk, ho, hcl, keysOf_insertA_eq hkeys]

/-- Unfolding of the loop on a fresh, loaded target: execute it via
`stepState`, recurse into it, then continue with the remaining
connections. -/
theorem execConnList_cons_exec (reg : NodeRegistry) (flow : FlowData)
    (fuel : Nat) (c : ConnectionData) (rest : List ConnectionData)
    (st : ExecState) (tn : NodeData)
    (hc : containsStr st.executed c.targetNodeId = false)
    (hfind : lookupA (buildNodesById flow.nodes) c.targetNodeId = some tn) :
    execConnList reg flow fuel (c :: rest) st =
      match execConnectedNodes reg flow fuel c.targetNodeId
          (stepState reg c tn st) with
      | none => none
      | some st'' => execConnList reg flow fuel rest st'' := by
  simp [execConnList, hc, hfind]

/-- The connection-processing loop is blind to result statuses: under
output-and-clock agreement of the registries, states with equal
traversal-visible projections evolve to runs with equal projections.
Which nodes get visited, in which order, and what data is routed to them
never depends on any result's `status` or `error` fields. -/
theorem execConnList_status_blind (reg1 reg2 : NodeRegistry) (flow : FlowData)
    (hagree : ExecAgrees reg1 reg2) :
    ∀ (fuel : Nat) (conns : List ConnectionData) (st1 st2 : ExecState),
      stProj st1 = stProj st2 →
      Option.map stProj (execConnList reg1 flow fuel conns st1) =
      Option.map stProj (execConnList reg2 flow fuel conns st2) := by
  intro fuel
  induction fuel with
  | zero =>
    intro conns
    induction conns with
    | nil =>
      intro st1 st2 hp
      simp [execConnList, hp]
    | cons c rest ih =>
      intro st1 st2 hp
      have hp' := hp
      simp only [stProj, Prod.mk.injEq] at hp'
      obtain ⟨hex, hout, hkeys, hclk⟩ := hp'
      cases hc : containsStr st2.executed c.targetNodeId with
      | true =>
        have hc1 : containsStr st1.executed c.targetNodeId = true := by
          rw [hex]; exact hc
        have e1 : execConnList reg1 flow 0 (c :: rest) st1 =
            execConnList reg1 flow 0 rest st1 := by
          simp [execConnList, hc1]
        have e2 : execConnList reg2 flow 0 (c :: rest) st2 =
            execConnList reg2 flow 0 rest st2 := by
          simp [execConnList, hc]
        rw [e1, e2]
        exact ih st1 st2 hp
      | false =>
        have hc1 : containsStr st1.executed c.targetNodeId = false := by
          rw [hex]; exact hc
        cases hfind : lookupA (buildNodesById flow.nodes) c.targetNodeId with
        | none =>
          have e1 : execConnList reg1 flow 0 (c :: rest) st1 =
              execConnList reg1 flow 0 rest st1 := by
            simp [execConnList, hc1, hfind]
          have e2 : execConnList reg2 flow 0 (c :: rest) st2 =
              execConnList reg2 flow 0 rest st2 := by
            simp [execConnList, hc, hfind]
          rw [e1, e2]
          exact ih st1 st2 hp
        | some tn =>
          rw [execConnList_cons_exec reg1 flow 0 c rest st1 tn hc1 hfind,
            execConnList_cons_exec reg2 flow 0 c rest st2 tn hc hfind]
          simp [execConnectedNodes]
  | succ n ihf =>
    intro conns
    induction conns with
    | nil =>
      intro st1 st2 hp
      simp [execConnList, hp]
    | cons c rest ih =>
      intro st1 st2 hp
      have hp' := hp
      simp only [stProj, Prod.mk.injEq] at hp'
      obtain ⟨hex, hout, hkeys, hclk⟩ := hp'
      cases hc : containsStr st2.executed c.targetNodeId with
      | true =>
        have hc1 : containsStr st1.executed c.targetNodeId = true := by
          rw [hex]; exact hc
        have e1 : execConnList reg1 flow (n + 1) (c :: rest) st1 =
            execConnList reg1 flow (n + 1) rest st1 := by
          simp [execConnList, hc1]
        have e2 : execConnList reg2 flow (n + 1) (c :: rest) st2 =
            execConnList reg2 flow (n + 1) rest st2 := by
          simp [execConnList, hc]
        rw [e1, e2]
        exact ih st1 st2 hp
      | false =>
        have hc1 : containsStr st1.executed c.targetNodeId = false := by
          rw [hex]; exact hc
        cases hfind : lookupA (buildNodesById flow.nodes) c.targetNodeId with
        | none =>
          have e1 : execConnList reg1 flow (n + 1) (c :: rest) st1 =
              execConnList reg1 flow (n + 1) rest st1 := by
            simp [execConnList, hc1, hfind]
          have e2 : execConnList reg2 flow (n + 1) (c :: rest) st2 =
              execConnList reg2 flow (n + 1) rest st2 := by
            simp [execConnList, hc, hfind]
          rw [e1, e2]
          exact ih st1 st2 hp
        | some tn =>
          rw [execConnList_cons_exec reg1 flow (n + 1) c rest st1 tn hc1 hfind,
            execConnList_cons_exec reg2 flow (n + 1) c rest st2 tn hc hfind]
          have hpA := stProj_stepState reg1 reg2 hagree c tn hp
          have e1 : execConnectedNodes reg1 flow (n + 1) c.targetNodeId
              (stepState reg1 c tn st1) =
              execConnList reg1 flow n
                (flow.connections.filter
                  (fun c' => c'.sourceNodeId == c.targetNodeId))
                (stepState reg1 c tn st1) := by
            simp [execConnectedNodes]
          have e2 : execConnectedNodes reg2 flow (n + 1) c.targetNodeId
              (stepState reg2 c tn st2) =
              execConnList reg2 flow n
                (flow.connections.filter
                  (fun c' => c'.sourceNodeId == c.targetNodeId))
                (stepState reg2 c tn st2) := by
            simp [execConnectedNodes]
          rw [e1, e2]
          have hinner := ihf
            (flow.connections.filter
              (fun c' => c'.sourceNodeId == c.targetNodeId))
            (stepState reg1 c tn st1) (stepState reg2 c tn st2) hpA
          cases o1 : execConnList reg1 flow n
              (flow.connections.filter
                (fun c' => c'.sourceNodeId == c.targetNodeId))
              (stepState reg1 c tn st1) with
          | none =>
            cases o2 : execConnList reg2 flow n
                (flow.connections.filter
                  (fun c' => c'.sourceNodeId == c.targetNodeId))
                (stepState reg2 c tn st2) with
            | none => rfl
            | some s2 =>
              rw [o1, o2] at hinner
              simp at hinner
          | some s1 =>
            cases o2 : execConnList reg2 flow n
                (flow.connections.filter
                  (fun c' => c'.sourceNodeId == c.targetNodeId))
                (stepState reg2 c tn st2) with
            | none =>
              rw [o1, o2] at hinner
              simp at hinner
            | some s2 =>
              have hs : stProj s1 = stProj s2 := by
                rw [o1, o2] at hinner
                simpa using hinner
              exact ih s1 s2 hs

theorem length_keysOf {α : Type} (d : Dict α) : (keysOf d).length = d.length := by
  simp [keysOf]

/-- The traversal-visible projection of a flow summary: everything except
the statuses, errors and timings stored inside the per-node results. -/
def summaryProj (s : FlowSummary) :
    Nat × String × String × List String × Nat × Nat :=
  (s.flowId, s.flowName, s.triggerNodeId, keysOf s.results, s.executedAt,
    s.totalNodesExecuted)

/-- C7.  A node result with status `error` does not halt traversal.  Two
registries that share node types and whose per-node executions agree on
outputs and clock — while their results' `status` and `error` may differ
arbitrarily, e.g. one succeeding where the other reports `error` — produce
runs with identical traversal-visible summaries: the same nodes appear in
the result map (the failing node's own result included, recorded under its
id), in the same order, with the same data routed onward out of whatever
(possibly empty) outputs each node produced.  Hence turning any node's
results into errors never stops its successors from executing. -/
theorem node_error_result_does_not_halt_traversal (reg1 reg2 : NodeRegistry)
    (flow : FlowData) (triggerInputs : Ctx) (clock : Nat)
    (htypes : reg1.nodeTypes = reg2.nodeTypes)
    (hagree : ExecAgrees reg1 reg2) :
    Except.map (Option.map summaryProj)
        (executeFlow reg1 flow triggerInputs clock) =
      Except.map (Option.map summaryProj)
        (executeFlow reg2 flow triggerInputs clock) := by
  have hsame : findTriggerNodesModular reg1 flow.nodes =
      findTriggerNodesModular reg2 flow.nodes := by
    simp [findTriggerNodesModular, isTriggerNode_congr htypes]
  unfold executeFlow
  rw [hsame]
  cases hft : findTriggerNodesModular reg2 flow.nodes with
  | nil => rfl
  | cons t ts =>
    cases ts with
    | cons t2 r2 => rfl
    | nil =>
      simp only [executeFlowModular]
      obtain ⟨ho, hcl⟩ := hagree t triggerInputs clock
      have hp0 : stProj (initState reg1 t triggerInputs clock) =
          stProj (initState reg2 t triggerInputs clock) := by
        simp only [initState, stProj]
        rw [ho, hcl]
        simp [keysOf]
      have e1 : execConnectedNodes reg1 flow (flow.nodes.length + 1) t.id
          (initState reg1 t triggerInputs clock) =
          execConnList reg1 flow flow.nodes.length
            (flow.connections.filter (fun c => c.sourceNodeId == t.id))
            (initState reg1 t triggerInputs clock) := by
        simp [execConnectedNodes]
      have e2 : execConnectedNodes reg2 flow (flow.nodes.length + 1) t.id
          (initState reg2 t triggerInputs clock) =
          execConnList reg2 flow flow.nodes.length
            (flow.connections.filter (fun c => c.sourceNodeId == t.id))
            (initState reg2 t triggerInputs clock) := by
        simp [execConnectedNodes]
      rw [e1, e2]
      have hinner := execConnList_status_blind reg1 reg2 flow hagree
        flow.nodes.length
        (flow.connections.filter (fun c => c.sourceNodeId == t.id))
        (initState reg1 t triggerInputs clock)
        (initState reg2 t triggerInputs clock) hp0
      cases o1 : execConnList reg1 flow flow.nodes.length
          (flow.connections.filter (fun c => c.sourceNodeId == t.id))
          (initState reg1 t triggerInputs clock) with
      | none =>
        cases o2 : execConnList reg2 flow flow.nodes.length
            (flow.connections.filter (fun c => c.sourceNodeId == t.id))
            (initState reg2 t triggerInputs clock) with
        | none => rfl
        | some s2 =>
          rw [o1, o2] at hinner
          simp at hinner
      | some s1 =>
        cases o2 : execConnList reg2 flow flow.nodes.length
            (flow.connections.filter (fun c => c.sourceNodeId == t.id))
            (initState reg2 t triggerInputs clock) with
        | none =>
          rw [o1, o2] at hinner
          simp at hinner
        | some s2 =>
          have hs : stProj s1 = stProj s2 := by
            rw [o1, o2] at hinner
            simpa using hinner
          simp only [stProj, Prod.mk.injEq] at hs
          obtain ⟨_, _, hkeys, hclk⟩ := hs
          have hlen : s1.results.length = s2.results.length := by
            have := congrArg List.length hkeys
            simpa [length_keysOf] using this
          simp [Except.map, summaryProj, hkeys, hclk, hlen]

/-- A registry for the chain `T -> M -> A` in which `M` succeeds with empty
outputs. -/
def regMidSuccess : NodeRegistry :=
  ⟨[("trig", ⟨"trig", "Trig", NodeCategory.trigger, "1.0"⟩),
    ("mid", ⟨"mid", "Mid", NodeCategory.processor, "1.0"⟩),
    ("act", ⟨"act", "Act", NodeCategory.action, "1.0"⟩)],
   [("trig", fun _ => .ok { outputs := [("o", Value.str "O")]
                            status := .success }),
    ("mid", fun _ => .ok { outputs := [], status := .success }),
    ("act", fun ctx => .ok { outputs := ctx, status := .success })]⟩

/-- The same registry except that `M` reports a `status="error"` result
(with the same, empty outputs). -/
def regMidError : NodeRegistry :=
  ⟨[("trig", ⟨"trig", "Trig", NodeCategory.trigger, "1.0"⟩),
    ("mid", ⟨"mid", "Mid", NodeCategory.processor, "1.0"⟩),
    ("act", ⟨"act", "Act", NodeCategory.action, "1.0"⟩)],
   [("trig", fun _ => .ok { outputs := [("o", Value.str "O")]
                            status := .success }),
    ("mid", fun _ => .ok { outputs := []
                           status := .error
                           error := some "boom" }),
    ("act", fun ctx => .ok { outputs := ctx, status := .success })]⟩

theorem regMid_agrees : ExecAgrees regMidSuccess regMidError := by
  intro node ctx clock
  cases hset : getStoredSettings node with
  | none => simp [executeNodeModular, hset]
  | some settings =>
    simp only [executeNodeModular, hset]
    by_cases h1 : ("trig" == node.typeId) = true
    · simp [executeNode, regMidSuccess, regMidError, lookupA, h1]
    · by_cases h2 : ("mid" == node.typeId) = true
      · simp [executeNode, regMidSuccess, regMidError, lookupA, h1, h2,
          fillTiming]
      · by_cases h3 : ("act" == node.typeId) = true
        · simp [executeNode, regMidSuccess, regMidError, lookupA, h1, h2, h3]
        · simp [executeNode, regMidSuccess, regMidError, lookupA, h1, h2, h3]

/-- The chain `T -> M -> A`. -/
def flowChain : FlowData :=
  ⟨8, "f8",
   [⟨"T", "trig", "T", []⟩, ⟨"M", "mid", "M", []⟩, ⟨"A", "act", "A", []⟩],
   [⟨"c1", "T", "M", "o", "i"⟩, ⟨"c2", "M", "A", "p", "q"⟩]⟩

/-- Witness for C7: whether the middle node of the chain succeeds or
reports an error, the run visits the same nodes (`A` included) with the
same routed data. -/
theorem node_error_result_does_not_halt_traversal_witness :
    Except.map (Option.map summaryProj)
        (executeFlow regMidSuccess flowChain [] 0) =
      Except.map (Option.map summaryProj)
        (executeFlow regMidError flowChain [] 0) :=
  node_error_result_does_not_halt_traversal regMidSuccess regMidError
    flowChain [] 0 rfl regMid_agrees
